import Mathlib

/-!
Shallow embedding of the ICL prompt sampler (`ICLDataLoader` in
`src/dataset.py`).

The program loads a corpus of records, keeps a cycling queue of corpus
indices, and on each `__next__` call pops the FIFO head of the queue as the
query item, filters the corpus for value-unequal candidates, draws
`context_size` of them without replacement, and renders a prompt string.

External collaborators (JSON / HF dataset loading, `tqdm`, Python's global
`random` module) are modelled as follows: the corpus arrives as an explicit
`List Item`; the progress bar is elided (only the `current_iteration`
attribute matters for the control flow); the random generator is an explicit
deterministic stream of naturals (`RNG`), with `shuffle`/`sample` consuming
it, so that "for every RNG state" is quantification over streams.
-/

namespace QuickICL

/-- Deterministic model of the global `random` state: a finite stream of
naturals; an exhausted stream yields 0 forever. -/
structure RNG where
  stream : List Nat
deriving DecidableEq, Repr

/-- Draw one natural from the stream. -/
def RNG.next : RNG → Nat × RNG
  | ⟨[]⟩ => (0, ⟨[]⟩)
  | ⟨x :: xs⟩ => (x, ⟨xs⟩)

/-- RNG-driven permutation, modelling `random.shuffle` (selection style:
repeatedly pick a position from the remaining list). The extra `Nat` is
fuel, instantiated with the list length. -/
def shuffleAux [DecidableEq α] : Nat → RNG → List α → List α × RNG
  | 0, g, l => (l, g)
  | _ + 1, g, [] => ([], g)
  | fuel + 1, g, a :: t =>
    let rg := g.next
    let x := (a :: t).getD (rg.1 % (a :: t).length) a
    let rec' := shuffleAux fuel rg.2 ((a :: t).erase x)
    (x :: rec'.1, rec'.2)

/-- `random.shuffle(l)`: the permuted list together with the advanced RNG. -/
def shuffle [DecidableEq α] (g : RNG) (l : List α) : List α × RNG :=
  shuffleAux l.length g l

/-- Selection of `k` elements without replacement, driven by the RNG.
Only meaningful when `k ≤ l.length`; on a too-short list it returns what is
available. -/
def sampleAux [DecidableEq α] : Nat → RNG → List α → List α × RNG
  | 0, g, _ => ([], g)
  | _ + 1, g, [] => ([], g)
  | k + 1, g, a :: t =>
    let rg := g.next
    let x := (a :: t).getD (rg.1 % (a :: t).length) a
    let rec' := sampleAux k rg.2 ((a :: t).erase x)
    (x :: rec'.1, rec'.2)

/-- `random.sample(population, k)`: `ValueError` (modelled as `none`) iff
`k` exceeds the population size, otherwise `k` elements drawn without
replacement. CPython validates `k` before consuming randomness, so the RNG
is untouched on failure. -/
def sample [DecidableEq α] (g : RNG) (l : List α) (k : Nat) :
    Option (List α) × RNG :=
  if k ≤ l.length then
    let r := sampleAux k g l
    (some r.1, r.2)
  else (none, g)

/-- A corpus record: either a generic pair `{input, output}` (JSON corpus)
or a sentiment record `{sentence, label}` (HF corpus). Python dicts compare
by value, as does the derived `DecidableEq`. -/
inductive Item where
  | pair (input output : String)
  | sentiment (sentence label : String)
deriving DecidableEq, Repr

/-- `item['input']` (KeyError on a sentiment record modelled as `none`). -/
def Item.inputField : Item → Option String
  | .pair i _ => some i
  | .sentiment _ _ => none

/-- `item['output']`. -/
def Item.outputField : Item → Option String
  | .pair _ o => some o
  | .sentiment _ _ => none

/-- `item['sentence']`. -/
def Item.sentenceField : Item → Option String
  | .pair _ _ => none
  | .sentiment s _ => some s

/-- `item['label']`. -/
def Item.labelField : Item → Option String
  | .pair _ _ => none
  | .sentiment _ l => some l

/-- One context line of the JSON branch: `f"{item['input']}: {item['output']}"`. -/
def fmtCtxJson (it : Item) : Option String := do
  let i ← it.inputField
  let o ← it.outputField
  pure (i ++ ": " ++ o)

/-- The query line of the JSON branch: `f"{prediction_item['input']}: "`. -/
def fmtQueryJson (it : Item) : Option String := do
  let i ← it.inputField
  pure (i ++ ": ")

/-- One context line of the HF branch:
`f"Sentence: {item['sentence']} Answer: {item['label']}"`. -/
def fmtCtxHf (it : Item) : Option String := do
  let s ← it.sentenceField
  let l ← it.labelField
  pure ("Sentence: " ++ s ++ " Answer: " ++ l)

/-- The query line of the HF branch:
`f"Sentence: {prediction_item['sentence']} Answer: "`. -/
def fmtQueryHf (it : Item) : Option String := do
  let s ← it.sentenceField
  pure ("Sentence: " ++ s ++ " Answer: ")

/-- The prompt assembly of `__next__` (lines 92–98): newline-join the
formatted context examples, then append `"\n"` and the query line. `none`
models a KeyError raised by a record of the wrong shape. -/
def buildPrompt (isJson : Bool) (ctx : List Item) (query : Item) :
    Option String :=
  if isJson then do
    let lines ← ctx.mapM fmtCtxJson
    let q ← fmtQueryJson query
    pure (String.intercalate "\n" lines ++ "\n" ++ q)
  else do
    let lines ← ctx.mapM fmtCtxHf
    let q ← fmtQueryHf query
    pure (String.intercalate "\n" lines ++ "\n" ++ q)

/-- The mutable state of an `ICLDataLoader` instance. `isJson` records the
`'json' in self.file_path` dispatch; `current_iteration = none` models the
attribute not existing before `__iter__` runs. -/
structure LoaderState where
  isJson : Bool
  data : List Item
  context_size : Nat
  dataset_size : Int
  ids : List Nat
  ids_queue : List Nat
  current_iteration : Option Nat
  rng : RNG
deriving DecidableEq, Repr

/-- `__init__` after data loading: `ids = list(range(len(data)))`,
`ids_queue = copy.copy(ids)` (taken BEFORE the shuffle), then
`random.shuffle(ids)` mutates only `ids`. -/
def mkLoader (isJson : Bool) (data : List Item) (context_size : Nat)
    (dataset_size : Int) (g : RNG) : LoaderState :=
  let ids := List.range data.length
  let ids_queue := ids
  let sh := shuffle g ids
  { isJson := isJson, data := data, context_size := context_size,
    dataset_size := dataset_size, ids := sh.1, ids_queue := ids_queue,
    current_iteration := none, rng := sh.2 }

/-- `__iter__`: sets `current_iteration = 0` (and creates the progress bar,
elided); it touches nothing else. -/
def iterStart (s : LoaderState) : LoaderState :=
  { s with current_iteration := some 0 }

/-- The Python exceptions `__next__` can raise. -/
inductive StepErr where
  | stopIteration
  | indexError
  | valueError
  | keyError
  | attributeError
deriving DecidableEq, Repr

/-- Lines 82–84 of `__next__`: if the queue is empty, reshuffle `ids` and
set the queue to a copy of the reshuffled list. -/
def refillIfEmpty (s : LoaderState) : LoaderState :=
  if s.ids_queue.isEmpty then
    let sh := shuffle s.rng s.ids
    { s with ids := sh.1, ids_queue := sh.1, rng := sh.2 }
  else s

/-- Line 88: `[item for item in self.data if item != prediction_item]` —
the context candidate pool, filtered by whole-record inequality. -/
def candidates (data : List Item) (prediction_item : Item) : List Item :=
  data.filter (fun item => item ≠ prediction_item)

/-- Lines 92–101: format the prompt; on success bump `current_iteration`. -/
def stepFormat (s : LoaderState) (it : Nat) (prediction_item : Item)
    (context_examples : List Item) : Except StepErr String × LoaderState :=
  match buildPrompt s.isJson context_examples prediction_item with
  | none => (.error .keyError, s)
  | some prompt => (.ok prompt, { s with current_iteration := some (it + 1) })

/-- Lines 88–90: build the candidate set by whole-record inequality and draw
`context_size` examples without replacement. -/
def stepSample (s : LoaderState) (it : Nat) (prediction_item : Item) :
    Except StepErr String × LoaderState :=
  match sample s.rng (candidates s.data prediction_item) s.context_size with
  | (none, g) => (.error .valueError, { s with rng := g })
  | (some context_examples, g) =>
    stepFormat { s with rng := g } it prediction_item context_examples

/-- Lines 86–87: index into the corpus with the popped index. -/
def stepPop (s : LoaderState) (it : Nat) (next_index : Nat) :
    Except StepErr String × LoaderState :=
  match s.data[next_index]? with
  | none => (.error .indexError, s)
  | some prediction_item => stepSample s it prediction_item

/-- Lines 82–90: refill if needed, then `ids_queue.pop(0)`. Popping an empty
list is an IndexError. -/
def stepBody (s : LoaderState) (it : Nat) : Except StepErr String × LoaderState :=
  match (refillIfEmpty s).ids_queue with
  | [] => (.error .indexError, refillIfEmpty s)
  | next_index :: rest =>
    stepPop { refillIfEmpty s with ids_queue := rest } it next_index

/-- `__next__` (lines 70–101). Reading `self.current_iteration` before
`__iter__` ran is an AttributeError; reaching the target raises
StopIteration; otherwise the body runs. -/
def step (s : LoaderState) : Except StepErr String × LoaderState :=
  match s.current_iteration with
  | none => (.error .attributeError, s)
  | some it =>
    if s.dataset_size ≤ (it : Int) then (.error .stopIteration, s)
    else stepBody s it

/-- The corpus index a call of `step` would pop as query, if it reaches the
pop: the head of the (refilled-if-empty) queue. -/
def poppedQuery (s : LoaderState) : Option Nat :=
  match s.current_iteration with
  | none => none
  | some it =>
    if s.dataset_size ≤ (it : Int) then none
    else (refillIfEmpty s).ids_queue.head?

/-- Iterate `step` `n` times, collecting the results. -/
def runSteps : LoaderState → Nat → List (Except StepErr String) × LoaderState
  | s, 0 => ([], s)
  | s, n + 1 =>
    let r := step s
    let rest := runSteps r.2 n
    (r.1 :: rest.1, rest.2)

/-- The query indices popped over `n` consecutive steps. -/
def queryTrace : LoaderState → Nat → List Nat
  | _, 0 => []
  | s, n + 1 => (poppedQuery s).toList ++ queryTrace (step s).2 n

/-- All records of `l` have the shape the `isJson` dispatch expects, so no
field access raises KeyError. -/
def kindMatches (isJson : Bool) : Item → Bool
  | .pair _ _ => isJson
  | .sentiment _ _ => !isJson

def wellKinded (isJson : Bool) (l : List Item) : Prop :=
  ∀ x ∈ l, kindMatches isJson x = true

instance (b : Bool) (l : List Item) : Decidable (wellKinded b l) := by
  unfold wellKinded; infer_instance

/-- Spec-side description of a pair-kind context line, `"<input>: <output>"`
(total on pair records; the junk value on the other shape is never used). -/
def pairLine : Item → String
  | .pair i o => i ++ ": " ++ o
  | .sentiment _ _ => ""

/-- Spec-side description of the pair-kind query line, `"<query.input>: "`. -/
def pairQueryLine : Item → String
  | .pair i _ => i ++ ": "
  | .sentiment _ _ => ""

/-- Spec-side description of a sentiment-kind context line,
`"Sentence: <sentence> Answer: <label>"`. -/
def sentLine : Item → String
  | .sentiment s l => "Sentence: " ++ s ++ " Answer: " ++ l
  | .pair _ _ => ""

/-- Spec-side description of the sentiment-kind query line,
`"Sentence: <query.sentence> Answer: "`. -/
def sentQueryLine : Item → String
  | .sentiment s _ => "Sentence: " ++ s ++ " Answer: "
  | .pair _ _ => ""

/-- A three-record pair corpus used for concrete witnesses. -/
def demoPairs : List Item :=
  [Item.pair "a" "b", Item.pair "c" "d", Item.pair "e" "f"]

/-- A two-record pair corpus used for concrete witnesses. -/
def demoPairs2 : List Item := [Item.pair "a" "b", Item.pair "c" "d"]

/-- A concrete mid-run state whose queue is exhausted: the next step starts a
new cycling pass. -/
def passState : LoaderState :=
  { isJson := true, data := demoPairs2, context_size := 1, dataset_size := 5,
    ids := [1, 0], ids_queue := [], current_iteration := some 0,
    rng := RNG.mk [1] }

/-- A freshly started sampler over the three-pair corpus with k = 1. -/
def firstState : LoaderState :=
  iterStart (mkLoader true demoPairs 1 5 (RNG.mk []))

/-- A freshly started sampler over the three-pair corpus with k = 2. -/
def firstStateK2 : LoaderState :=
  iterStart (mkLoader true demoPairs 2 5 (RNG.mk []))

/-- A freshly started sampler over the two-pair corpus with k = 2: its first
context draw must fail (only one candidate remains). -/
def overdrawState : LoaderState :=
  iterStart (mkLoader true demoPairs2 2 5 (RNG.mk []))

/-- A freshly started sampler with a negative target count. -/
def negTargetState : LoaderState :=
  iterStart (mkLoader true demoPairs 1 (-3) (RNG.mk []))

/-- The sampler over the three-pair corpus after one consumed step and a
restart of iteration. -/
def restartState : LoaderState :=
  iterStart ((step (iterStart (mkLoader true demoPairs 1 5 (RNG.mk [])))).2)

/-! ### Basic lemmas about the RNG primitives -/

theorem getD_mem_of_ne_nil [DecidableEq α] (a : α) (t : List α) (n : Nat) :
    (a :: t).getD n a ∈ a :: t := by
  have hlt : n % (a :: t).length < (a :: t).length ∨ True := Or.inr trivial
  by_cases h : n < (a :: t).length
  · rw [List.getD_eq_getElem _ _ h]
    exact List.getElem_mem h
  · rw [List.getD_eq_default _ _ (Nat.le_of_not_lt h)]
    exact List.mem_cons_self a t

theorem shuffleAux_perm [DecidableEq α] :
    ∀ (fuel : Nat) (g : RNG) (l : List α), ((shuffleAux fuel g l).1).Perm l
  | 0, _, l => List.Perm.refl l
  | _ + 1, _, [] => List.Perm.refl []
  | fuel + 1, g, a :: t => by
    simp only [shuffleAux]
    have hx : (a :: t).getD (g.next.1 % (a :: t).length) a ∈ a :: t :=
      getD_mem_of_ne_nil a t _
    exact ((shuffleAux_perm fuel _ _).cons _).trans (List.perm_cons_erase hx).symm

theorem shuffle_perm [DecidableEq α] (g : RNG) (l : List α) :
    ((shuffle g l).1).Perm l :=
  shuffleAux_perm l.length g l

theorem shuffle_length [DecidableEq α] (g : RNG) (l : List α) :
    ((shuffle g l).1).length = l.length :=
  (shuffle_perm g l).length_eq

theorem sampleAux_subperm [DecidableEq α] :
    ∀ (k : Nat) (g : RNG) (l : List α), (sampleAux k g l).1.Subperm l
  | 0, _, _ => List.nil_subperm
  | _ + 1, _, [] => List.nil_subperm
  | k + 1, g, a :: t => by
    simp only [sampleAux]
    have hx : (a :: t).getD (g.next.1 % (a :: t).length) a ∈ a :: t :=
      getD_mem_of_ne_nil a t _
    exact ((List.subperm_cons _).mpr (sampleAux_subperm k g.next.2 _)).trans
      (List.perm_cons_erase hx).symm.subperm

theorem sampleAux_length [DecidableEq α] :
    ∀ (k : Nat) (g : RNG) (l : List α), k ≤ l.length →
      ((sampleAux k g l).1).length = k
  | 0, _, _, _ => rfl
  | k + 1, g, [], h => absurd h (by simp)
  | k + 1, g, a :: t, h => by
    have hx : (a :: t).getD (g.next.1 % (a :: t).length) a ∈ a :: t :=
      getD_mem_of_ne_nil a t _
    have herase : ((a :: t).erase ((a :: t).getD (g.next.1 % (a :: t).length) a)).length
        = t.length := by
      rw [List.length_erase_of_mem hx]; rfl
    have hk : k ≤ ((a :: t).erase ((a :: t).getD (g.next.1 % (a :: t).length) a)).length := by
      rw [herase]; exact Nat.le_of_succ_le_succ h
    show ((a :: t).getD (g.next.1 % (a :: t).length) a ::
        (sampleAux k g.next.2
          ((a :: t).erase ((a :: t).getD (g.next.1 % (a :: t).length) a))).1).length = k + 1
    rw [List.length_cons, sampleAux_length k _ _ hk]

theorem sample_isSome_iff [DecidableEq α] (g : RNG) (l : List α) (k : Nat) :
    (sample g l k).1.isSome ↔ k ≤ l.length := by
  unfold sample
  by_cases h : k ≤ l.length <;> simp [h]

theorem sample_eq_some [DecidableEq α] {g g' : RNG} {l ctx : List α} {k : Nat}
    (h : sample g l k = (some ctx, g')) :
    k ≤ l.length ∧ ctx = (sampleAux k g l).1 := by
  unfold sample at h
  by_cases hk : k ≤ l.length
  · rw [if_pos hk] at h
    exact ⟨hk, by cases h; rfl⟩
  · rw [if_neg hk] at h
    cases h

theorem sample_eq_none [DecidableEq α] {g : RNG} {l : List α} {k : Nat}
    (h : ¬ k ≤ l.length) : sample g l k = (none, g) := by
  unfold sample
  rw [if_neg h]

theorem sample_some_length [DecidableEq α] {g g' : RNG} {l ctx : List α} {k : Nat}
    (h : sample g l k = (some ctx, g')) : ctx.length = k := by
  obtain ⟨hk, rfl⟩ := sample_eq_some h
  exact sampleAux_length k g l hk

theorem sample_some_subperm [DecidableEq α] {g g' : RNG} {l ctx : List α} {k : Nat}
    (h : sample g l k = (some ctx, g')) : ctx.Subperm l := by
  obtain ⟨_, rfl⟩ := sample_eq_some h
  exact sampleAux_subperm k g l

theorem sample_none_rng [DecidableEq α] {g g' : RNG} {l : List α} {k : Nat}
    (h : sample g l k = (none, g')) : g' = g ∧ l.length < k := by
  unfold sample at h
  by_cases hk : k ≤ l.length
  · rw [if_pos hk] at h; cases h
  · rw [if_neg hk] at h
    exact ⟨(Prod.mk.injEq _ _ _ _ ▸ h).2.symm ▸ rfl, Nat.lt_of_not_le hk⟩

/-! ### State bookkeeping lemmas -/

@[simp] theorem set_queue_data (s : LoaderState) (q : List Nat) :
    ({ s with ids_queue := q } : LoaderState).data = s.data := rfl

@[simp] theorem set_queue_isJson (s : LoaderState) (q : List Nat) :
    ({ s with ids_queue := q } : LoaderState).isJson = s.isJson := rfl

@[simp] theorem set_queue_ctxsize (s : LoaderState) (q : List Nat) :
    ({ s with ids_queue := q } : LoaderState).context_size = s.context_size := rfl

@[simp] theorem set_queue_rng (s : LoaderState) (q : List Nat) :
    ({ s with ids_queue := q } : LoaderState).rng = s.rng := rfl

@[simp] theorem refill_data (s : LoaderState) : (refillIfEmpty s).data = s.data := by
  unfold refillIfEmpty; split <;> rfl

@[simp] theorem refill_isJson (s : LoaderState) : (refillIfEmpty s).isJson = s.isJson := by
  unfold refillIfEmpty; split <;> rfl

@[simp] theorem refill_ctxsize (s : LoaderState) :
    (refillIfEmpty s).context_size = s.context_size := by
  unfold refillIfEmpty; split <;> rfl

@[simp] theorem refill_dssize (s : LoaderState) :
    (refillIfEmpty s).dataset_size = s.dataset_size := by
  unfold refillIfEmpty; split <;> rfl

@[simp] theorem refill_iteration (s : LoaderState) :
    (refillIfEmpty s).current_iteration = s.current_iteration := by
  unfold refillIfEmpty; split <;> rfl

theorem refill_of_ne_nil {s : LoaderState} (h : s.ids_queue ≠ []) :
    refillIfEmpty s = s := by
  unfold refillIfEmpty
  rw [if_neg (by simpa using h)]

theorem refill_of_empty {s : LoaderState} (h : s.ids_queue = []) :
    refillIfEmpty s = { s with
      ids := (shuffle s.rng s.ids).1,
      ids_queue := (shuffle s.rng s.ids).1,
      rng := (shuffle s.rng s.ids).2 } := by
  unfold refillIfEmpty
  rw [if_pos (by simp [h])]

@[simp] theorem runSteps_zero (s : LoaderState) : runSteps s 0 = ([], s) := rfl

theorem runSteps_succ (s : LoaderState) (n : Nat) :
    runSteps s (n + 1)
      = ((step s).1 :: (runSteps (step s).2 n).1, (runSteps (step s).2 n).2) := rfl

@[simp] theorem queryTrace_zero (s : LoaderState) : queryTrace s 0 = [] := rfl

theorem queryTrace_succ (s : LoaderState) (n : Nat) :
    queryTrace s (n + 1) = (poppedQuery s).toList ++ queryTrace (step s).2 n := rfl

/-! ### Formatting lemmas -/

theorem fmtCtxJson_eq {x : Item} (h : kindMatches true x = true) :
    fmtCtxJson x = some (pairLine x) := by
  cases x with
  | pair i o => rfl
  | sentiment a b => simp [kindMatches] at h

theorem fmtQueryJson_eq {x : Item} (h : kindMatches true x = true) :
    fmtQueryJson x = some (pairQueryLine x) := by
  cases x with
  | pair i o => rfl
  | sentiment a b => simp [kindMatches] at h

theorem fmtCtxHf_eq {x : Item} (h : kindMatches false x = true) :
    fmtCtxHf x = some (sentLine x) := by
  cases x with
  | pair i o => simp [kindMatches] at h
  | sentiment a b => rfl

theorem fmtQueryHf_eq {x : Item} (h : kindMatches false x = true) :
    fmtQueryHf x = some (sentQueryLine x) := by
  cases x with
  | pair i o => simp [kindMatches] at h
  | sentiment a b => rfl

theorem mapM_fmtCtxJson {ctx : List Item}
    (h : ∀ x ∈ ctx, kindMatches true x = true) :
    ctx.mapM fmtCtxJson = some (ctx.map pairLine) := by
  induction ctx with
  | nil => rfl
  | cons a t ih =>
    rw [List.mapM_cons, fmtCtxJson_eq (h a (by simp)),
      ih (fun x hx => h x (by simp [hx]))]
    rfl

theorem mapM_fmtCtxHf {ctx : List Item}
    (h : ∀ x ∈ ctx, kindMatches false x = true) :
    ctx.mapM fmtCtxHf = some (ctx.map sentLine) := by
  induction ctx with
  | nil => rfl
  | cons a t ih =>
    rw [List.mapM_cons, fmtCtxHf_eq (h a (by simp)),
      ih (fun x hx => h x (by simp [hx]))]
    rfl

theorem buildPrompt_pair {ctx : List Item} {q : Item}
    (hc : ∀ x ∈ ctx, kindMatches true x = true) (hq : kindMatches true q = true) :
    buildPrompt true ctx q
      = some (String.intercalate "\n" (ctx.map pairLine) ++ "\n" ++ pairQueryLine q) := by
  unfold buildPrompt
  rw [if_pos rfl]
  rw [mapM_fmtCtxJson hc, fmtQueryJson_eq hq]
  rfl

theorem buildPrompt_sent {ctx : List Item} {q : Item}
    (hc : ∀ x ∈ ctx, kindMatches false x = true) (hq : kindMatches false q = true) :
    buildPrompt false ctx q
      = some (String.intercalate "\n" (ctx.map sentLine) ++ "\n" ++ sentQueryLine q) := by
  unfold buildPrompt
  rw [if_neg (by simp)]
  rw [mapM_fmtCtxHf hc, fmtQueryHf_eq hq]
  rfl

theorem buildPrompt_isSome {b : Bool} {ctx : List Item} {q : Item}
    (hc : ∀ x ∈ ctx, kindMatches b x = true) (hq : kindMatches b q = true) :
    ∃ p, buildPrompt b ctx q = some p := by
  cases b
  · exact ⟨_, buildPrompt_sent hc hq⟩
  · exact ⟨_, buildPrompt_pair hc hq⟩

theorem intercalate_go_append (sep x : String) :
    ∀ (l : List String) (acc : String),
      String.intercalate.go acc sep (l ++ [x])
        = String.intercalate.go acc sep l ++ sep ++ x
  | [], _ => rfl
  | a :: t, acc => intercalate_go_append sep x t (acc ++ sep ++ a)

theorem intercalate_append_last (sep x : String) (l : List String) (h : l ≠ []) :
    String.intercalate sep (l ++ [x]) = String.intercalate sep l ++ sep ++ x := by
  cases l with
  | nil => exact absurd rfl h
  | cons a t => exact intercalate_go_append sep x t a

/-! ### Exhaustive characterization of one step -/

/-- Exactly one of the seven control paths of `__next__` is taken:
AttributeError before `__iter__`; StopIteration at the target; IndexError on
an empty corpus; IndexError on an out-of-range index; ValueError from
`random.sample`; KeyError from formatting; or success. In each case the
successor state is pinned down. -/
theorem step_characterization (s : LoaderState) :
    (s.current_iteration = none ∧ step s = (.error .attributeError, s)) ∨
    (∃ it, s.current_iteration = some it ∧ s.dataset_size ≤ (it : Int) ∧
      step s = (.error .stopIteration, s)) ∨
    (∃ it, s.current_iteration = some it ∧ ¬ s.dataset_size ≤ (it : Int) ∧
      (refillIfEmpty s).ids_queue = [] ∧
      step s = (.error .indexError, refillIfEmpty s)) ∨
    (∃ it i rest, s.current_iteration = some it ∧ ¬ s.dataset_size ≤ (it : Int) ∧
      (refillIfEmpty s).ids_queue = i :: rest ∧ s.data[i]? = none ∧
      step s = (.error .indexError, { refillIfEmpty s with ids_queue := rest })) ∨
    (∃ it i rest pred, s.current_iteration = some it ∧ ¬ s.dataset_size ≤ (it : Int) ∧
      (refillIfEmpty s).ids_queue = i :: rest ∧ s.data[i]? = some pred ∧
      sample (refillIfEmpty s).rng (candidates s.data pred) s.context_size
        = (none, (refillIfEmpty s).rng) ∧
      (candidates s.data pred).length < s.context_size ∧
      step s = (.error .valueError, { refillIfEmpty s with ids_queue := rest })) ∨
    (∃ it i rest pred ctx g, s.current_iteration = some it ∧ ¬ s.dataset_size ≤ (it : Int) ∧
      (refillIfEmpty s).ids_queue = i :: rest ∧ s.data[i]? = some pred ∧
      sample (refillIfEmpty s).rng (candidates s.data pred) s.context_size
        = (some ctx, g) ∧
      buildPrompt s.isJson ctx pred = none ∧
      step s = (.error .keyError,
        { refillIfEmpty s with ids_queue := rest, rng := g })) ∨
    (∃ it i rest pred ctx g p, s.current_iteration = some it ∧ ¬ s.dataset_size ≤ (it : Int) ∧
      (refillIfEmpty s).ids_queue = i :: rest ∧ s.data[i]? = some pred ∧
      sample (refillIfEmpty s).rng (candidates s.data pred) s.context_size
        = (some ctx, g) ∧
      buildPrompt s.isJson ctx pred = some p ∧
      step s = (.ok p,
        { refillIfEmpty s with
          ids_queue := rest, rng := g, current_iteration := some (it + 1) })) := by
  cases hci : s.current_iteration with
  | none =>
    exact Or.inl ⟨rfl, by unfold step; rw [hci]⟩
  | some it =>
    by_cases hds : s.dataset_size ≤ (it : Int)
    · refine Or.inr (Or.inl ⟨it, rfl, hds, ?_⟩)
      unfold step
      rw [hci]
      exact if_pos hds
    · have hstep : step s = stepBody s it := by
        unfold step
        rw [hci]
        exact if_neg hds
      cases hq : (refillIfEmpty s).ids_queue with
      | nil =>
        refine Or.inr (Or.inr (Or.inl ⟨it, rfl, hds, rfl, ?_⟩))
        rw [hstep]
        unfold stepBody
        rw [hq]
      | cons i rest =>
        have hstep2 : step s
            = stepPop { refillIfEmpty s with ids_queue := rest } it i := by
          rw [hstep]
          unfold stepBody
          rw [hq]
        have hdata : ({ refillIfEmpty s with ids_queue := rest }
            : LoaderState).data = s.data := by
          rw [set_queue_data, refill_data]
        cases hg : s.data[i]? with
        | none =>
          refine Or.inr (Or.inr (Or.inr (Or.inl ⟨it, i, rest, rfl, hds, rfl, hg, ?_⟩)))
          rw [hstep2]
          unfold stepPop
          rw [hdata, hg]
        | some pred =>
          have hstep3 : step s
              = stepSample { refillIfEmpty s with ids_queue := rest } it pred := by
            rw [hstep2]
            unfold stepPop
            rw [hdata, hg]
          rcases hsamp : sample (refillIfEmpty s).rng (candidates s.data pred)
              s.context_size with ⟨o, g⟩
          have hsamp' : sample ({ refillIfEmpty s with ids_queue := rest }
                : LoaderState).rng
              (candidates ({ refillIfEmpty s with ids_queue := rest }
                : LoaderState).data pred)
              ({ refillIfEmpty s with ids_queue := rest } : LoaderState).context_size
              = (o, g) := by
            rw [set_queue_rng, hdata, set_queue_ctxsize, refill_ctxsize]
            exact hsamp
          cases o with
          | none =>
            obtain ⟨hgeq, hlen⟩ := sample_none_rng hsamp
            refine Or.inr (Or.inr (Or.inr (Or.inr (Or.inl
              ⟨it, i, rest, pred, rfl, hds, rfl, hg, hgeq ▸ hsamp, hlen, ?_⟩))))
            rw [hstep3]
            unfold stepSample
            rw [hsamp']
            subst hgeq
            rfl
          | some ctx =>
            have hstep4 : step s
                = stepFormat { refillIfEmpty s with ids_queue := rest, rng := g }
                    it pred ctx := by
              rw [hstep3]
              unfold stepSample
              rw [hsamp']
            have hisj : ({ refillIfEmpty s with ids_queue := rest, rng := g }
                : LoaderState).isJson = s.isJson := by
              rw [show ({ refillIfEmpty s with ids_queue := rest, rng := g }
                : LoaderState).isJson = (refillIfEmpty s).isJson from rfl,
                refill_isJson]
            cases hbp : buildPrompt s.isJson ctx pred with
            | none =>
              refine Or.inr (Or.inr (Or.inr (Or.inr (Or.inr (Or.inl
                ⟨it, i, rest, pred, ctx, g, rfl, hds, rfl, hg, hsamp, hbp, ?_⟩)))))
              rw [hstep4]
              unfold stepFormat
              rw [hisj, hbp]
            | some p =>
              refine Or.inr (Or.inr (Or.inr (Or.inr (Or.inr (Or.inr
                ⟨it, i, rest, pred, ctx, g, p, rfl, hds, rfl, hg, hsamp, hbp, ?_⟩)))))
              have hbp2 : buildPrompt ({ refillIfEmpty s with
                  ids_queue := rest, rng := g } : LoaderState).isJson ctx pred
                  = some p := by
                rw [hisj]; exact hbp
              rw [hstep4]
              unfold stepFormat
              rw [hbp2]

/-! ### Consequences of the characterization -/

theorem candidates_mem_iff (data : List Item) (pred x : Item) :
    x ∈ candidates data pred ↔ (x ∈ data ∧ x ≠ pred) := by
  unfold candidates
  simp [List.mem_filter]

theorem candidates_length_nodup :
    ∀ {data : List Item} {pred : Item}, data.Nodup → pred ∈ data →
      (candidates data pred).length = data.length - 1 := by
  intro data
  induction data with
  | nil => intro pred _ hm; cases hm
  | cons a t ih =>
    intro pred hn hm
    rcases List.mem_cons.mp hm with rfl | hmt
    · have hat : pred ∉ t := (List.nodup_cons.mp hn).1
      have hfe : candidates (pred :: t) pred = t := by
        unfold candidates
        rw [List.filter_cons_of_neg (by simp)]
        exact List.filter_eq_self.mpr (fun x hx => by
          simp only [decide_eq_true_eq]
          exact fun hxp => hat (hxp ▸ hx))
      rw [hfe]; rfl
    · have hne : a ≠ pred := fun he => (List.nodup_cons.mp hn).1 (he ▸ hmt)
      have ht := ih (List.nodup_cons.mp hn).2 hmt
      unfold candidates at ht ⊢
      rw [List.filter_cons_of_pos (by simp [hne])]
      simp only [List.length_cons, ht]
      have hpos : 0 < t.length := List.length_pos_of_mem hmt
      omega

/-- Inversion of a successful step. -/
theorem step_ok_inv {s : LoaderState} {p : String} {s' : LoaderState}
    (h : step s = (Except.ok p, s')) :
    ∃ it i rest pred ctx g,
      s.current_iteration = some it ∧
      ¬ s.dataset_size ≤ (it : Int) ∧
      (refillIfEmpty s).ids_queue = i :: rest ∧
      s.data[i]? = some pred ∧
      sample (refillIfEmpty s).rng (candidates s.data pred) s.context_size
        = (some ctx, g) ∧
      buildPrompt s.isJson ctx pred = some p ∧
      s' = { refillIfEmpty s with
        ids_queue := rest, rng := g, current_iteration := some (it + 1) } := by
  rcases step_characterization s with
    ⟨_, hs⟩ | ⟨it, _, _, hs⟩ | ⟨it, _, _, _, hs⟩ |
    ⟨it, i, rest, _, _, _, _, hs⟩ |
    ⟨it, i, rest, pred, _, _, _, _, _, _, hs⟩ |
    ⟨it, i, rest, pred, ctx, g, _, _, _, _, _, _, hs⟩ |
    ⟨it, i, rest, pred, ctx, g, p0, hci, hds, hq, hg, hsmp, hbp, hs⟩
  · rw [hs] at h; simp at h
  · rw [hs] at h; simp at h
  · rw [hs] at h; simp at h
  · rw [hs] at h; simp at h
  · rw [hs] at h; simp at h
  · rw [hs] at h; simp at h
  · rw [hs] at h
    rw [Prod.mk.injEq] at h
    obtain ⟨hp, hst⟩ := h
    injection hp with hp
    subst hp
    exact ⟨it, i, rest, pred, ctx, g, hci, hds, hq, hg, hsmp, hbp, hst.symm⟩

/-- If a step passes the guards and pops a valid index, it reaches the
context draw: it fails with ValueError exactly when the candidate pool is
smaller than `context_size`, and otherwise succeeds. -/
theorem step_reaches_sample (s : LoaderState) (it i : Nat) (pred : Item)
    (hci : s.current_iteration = some it) (hds : ¬ s.dataset_size ≤ (it : Int))
    (hq : (refillIfEmpty s).ids_queue.head? = some i)
    (hg : s.data[i]? = some pred) (hwk : wellKinded s.isJson s.data) :
    ((candidates s.data pred).length < s.context_size ∧
      (step s).1 = Except.error StepErr.valueError) ∨
    (s.context_size ≤ (candidates s.data pred).length ∧
      ∃ p s' ctx g, step s = (Except.ok p, s') ∧
        sample (refillIfEmpty s).rng (candidates s.data pred) s.context_size
          = (some ctx, g) ∧
        ctx.length = s.context_size ∧ ctx.Subperm (candidates s.data pred) ∧
        buildPrompt s.isJson ctx pred = some p) := by
  rcases step_characterization s with
    ⟨hci2, _⟩ | ⟨it2, hci2, hds2, _⟩ | ⟨it2, hci2, hds2, hq2, _⟩ |
    ⟨it2, i2, rest2, hci2, hds2, hq2, hg2, _⟩ |
    ⟨it2, i2, rest2, pred2, hci2, hds2, hq2, hg2, hsmp2, hlen2, hs⟩ |
    ⟨it2, i2, rest2, pred2, ctx2, g2, hci2, hds2, hq2, hg2, hsmp2, hbp2, hs⟩ |
    ⟨it2, i2, rest2, pred2, ctx2, g2, p2, hci2, hds2, hq2, hg2, hsmp2, hbp2, hs⟩
  · rw [hci] at hci2; cases hci2
  · rw [hci] at hci2; injection hci2 with hit; subst hit; exact absurd hds2 hds
  · rw [hq2] at hq; cases hq
  · rw [hq2] at hq
    injection hq with hi
    subst hi
    rw [hg] at hg2; cases hg2
  · rw [hq2] at hq
    injection hq with hi
    subst hi
    rw [hg] at hg2
    injection hg2 with hpred
    subst hpred
    exact Or.inl ⟨hlen2, by rw [hs]⟩
  · exfalso
    rw [hq2] at hq
    injection hq with hi
    subst hi
    rw [hg] at hg2
    injection hg2 with hpred
    subst hpred
    have hmem : pred ∈ s.data := List.getElem?_mem hg
    have hctxmem : ∀ x ∈ ctx2, kindMatches s.isJson x = true := fun x hx =>
      hwk x (List.mem_of_mem_filter ((sample_some_subperm hsmp2).subset hx))
    obtain ⟨pp, hpp⟩ := buildPrompt_isSome hctxmem (hwk pred hmem)
    rw [hpp] at hbp2; cases hbp2
  · rw [hq2] at hq
    injection hq with hi
    subst hi
    rw [hg] at hg2
    injection hg2 with hpred
    subst hpred
    exact Or.inr ⟨(sample_eq_some hsmp2).1, p2, _, ctx2, g2, hs, hsmp2,
      sample_some_length hsmp2, sample_some_subperm hsmp2, hbp2⟩

/-! ### A full cycling pass -/

/-- Running exactly as many steps as the queue holds pops the queue in FIFO
order, succeeds at every step (under a well-formed configuration), and ends
with the queue empty, the corpus and configuration untouched, and the
counter advanced by the queue length. -/
theorem pass_steps :
    ∀ (q : List Nat) (s : LoaderState) (it : Nat),
      s.current_iteration = some it →
      s.ids_queue = q →
      (∀ j ∈ q, j < s.data.length) →
      s.data.Nodup →
      wellKinded s.isJson s.data →
      s.context_size + 1 ≤ s.data.length →
      (it : Int) + q.length ≤ s.dataset_size →
      queryTrace s q.length = q ∧
      (∀ r ∈ (runSteps s q.length).1, ∃ p, r = Except.ok p) ∧
      (∃ g, (runSteps s q.length).2 = { s with
        ids_queue := [], rng := g,
        current_iteration := some (it + q.length) })
  | [], s, it, hci, hq, _, _, _, _, _ => by
    refine ⟨rfl, by simp, s.rng, ?_⟩
    have heq : some (it + ([] : List Nat).length) = s.current_iteration := by
      rw [hci]
      rfl
    show s = { s with
      ids_queue := [], rng := s.rng,
      current_iteration := some (it + ([] : List Nat).length) }
    rw [heq, ← hq]
  | j :: q, s, it, hci, hq, hbound, hnodup, hwk, hk, hbudget => by
    have hne : s.ids_queue ≠ [] := by rw [hq]; exact List.cons_ne_nil j q
    have hrefill : refillIfEmpty s = s := refill_of_ne_nil hne
    have hds : ¬ s.dataset_size ≤ (it : Int) := by
      simp only [List.length_cons] at hbudget
      push_cast at hbudget
      omega
    have hj : j < s.data.length := hbound j (by simp)
    have hg0 : s.data[j]? = some s.data[j] := List.getElem?_eq_getElem hj
    have hhead : (refillIfEmpty s).ids_queue.head? = some j := by
      rw [hrefill, hq]; rfl
    have hpredmem : s.data[j] ∈ s.data := List.getElem_mem hj
    have hcand : (candidates s.data s.data[j]).length = s.data.length - 1 :=
      candidates_length_nodup hnodup hpredmem
    rcases step_reaches_sample s it j s.data[j] hci hds hhead hg0 hwk with
      ⟨hlt, _⟩ | ⟨hge, p, s', ctx, g, hstepEq, hsmp, hlenc, hsub, hbp⟩
    · rw [hcand] at hlt; omega
    · obtain ⟨it2, i2, rest2, pred2, ctx2, g2, hci2, _, hq2, hg2, hsmp2, hbp2, hs'⟩ :=
        step_ok_inv hstepEq
      rw [hci] at hci2; injection hci2 with hit; subst hit
      rw [hrefill, hq] at hq2
      injection hq2 with hji hqr
      subst hji; subst hqr
      rw [hrefill] at hs'
      subst hs'
      have hpop : poppedQuery s = some j := by
        unfold poppedQuery
        rw [hci]
        show (if s.dataset_size ≤ (it : Int) then none
          else (refillIfEmpty s).ids_queue.head?) = some j
        rw [if_neg hds]
        exact hhead
      obtain ⟨ihtrace, ihok, gf, ihfinal⟩ :=
        pass_steps q
          { s with ids_queue := q, rng := g2, current_iteration := some (it + 1) }
          (it + 1) rfl rfl
          (fun x hx => hbound x (List.mem_cons_of_mem j hx))
          hnodup hwk hk
          (by
            show ((it + 1 : Nat) : Int) + q.length ≤ s.dataset_size
            simp only [List.length_cons] at hbudget
            push_cast at hbudget ⊢
            omega)
      refine ⟨?_, ?_, gf, ?_⟩
      · show queryTrace s (q.length + 1) = j :: q
        rw [queryTrace_succ, hpop, hstepEq]
        show [j] ++ queryTrace
          { s with ids_queue := q, rng := g2, current_iteration := some (it + 1) }
          q.length = j :: q
        rw [ihtrace]
        rfl
      · show ∀ r ∈ (runSteps s (q.length + 1)).1, ∃ p0, r = Except.ok p0
        rw [runSteps_succ, hstepEq]
        intro r hr
        rcases List.mem_cons.mp hr with rfl | hr2
        · exact ⟨p, rfl⟩
        · exact ihok r hr2
      · show (runSteps s (q.length + 1)).2 = { s with
          ids_queue := [],
          rng := gf,
          current_iteration := some (it + (q.length + 1)) }
        rw [runSteps_succ, hstepEq]
        show (runSteps
          { s with ids_queue := q, rng := g2, current_iteration := some (it + 1) }
          q.length).2 = { s with
            ids_queue := [],
            rng := gf,
            current_iteration := some (it + (q.length + 1)) }
        rw [ihfinal]
        show ({ s with
          ids_queue := [],
          rng := gf,
          current_iteration := some (it + 1 + q.length) } : LoaderState) = { s with
            ids_queue := [],
            rng := gf,
            current_iteration := some (it + (q.length + 1)) }
        rw [show it + 1 + q.length = it + (q.length + 1) by omega]

/-! ### Claim theorems -/

/-- Claim C1: for a non-empty corpus of N items, a step at an empty queue
refills it with a random permutation of all N indices before popping; within
the pass the query indices are popped strictly FIFO (the trace of popped
queries equals the refilled queue, in order), and across the N steps of the
pass every corpus index is used as query exactly once, the queue being empty
again exactly at the end of the pass. -/
theorem cycling_pass_fifo_exactly_once (s : LoaderState) (it N : Nat)
    (hN : s.data.length = N) (hpos : 0 < N)
    (hci : s.current_iteration = some it)
    (hq : s.ids_queue = [])
    (hids : s.ids.Perm (List.range N))
    (hnodup : s.data.Nodup)
    (hwk : wellKinded s.isJson s.data)
    (hk : s.context_size + 1 ≤ N)
    (hbudget : (it : Int) + N ≤ s.dataset_size) :
    (refillIfEmpty s).ids_queue = (shuffle s.rng s.ids).1 ∧
    ((refillIfEmpty s).ids_queue).Perm (List.range N) ∧
    queryTrace s N = (refillIfEmpty s).ids_queue ∧
    (queryTrace s N).Perm (List.range N) ∧
    (∀ r ∈ (runSteps s N).1, ∃ p, r = Except.ok p) ∧
    (runSteps s N).2.ids_queue = [] := by
  have hrq : (refillIfEmpty s).ids_queue = (shuffle s.rng s.ids).1 := by
    rw [refill_of_empty hq]
  have hperm : ((refillIfEmpty s).ids_queue).Perm (List.range N) := by
    rw [hrq]; exact (shuffle_perm s.rng s.ids).trans hids
  have hlen1 : (refillIfEmpty s).ids_queue.length = N :=
    hperm.length_eq.trans (List.length_range N)
  have hci1 : (refillIfEmpty s).current_iteration = some it := by
    rw [refill_iteration]; exact hci
  have hds : ¬ s.dataset_size ≤ (it : Int) := by
    omega
  have hne1 : (refillIfEmpty s).ids_queue ≠ [] := by
    intro hcon
    rw [hcon] at hlen1
    simp at hlen1
    omega
  have hrefill1 : refillIfEmpty (refillIfEmpty s) = refillIfEmpty s :=
    refill_of_ne_nil hne1
  have hstepBody : stepBody s it = stepBody (refillIfEmpty s) it := by
    unfold stepBody
    rw [hrefill1]
  have hstep_s : step s = stepBody s it := by
    unfold step; rw [hci]
    show (if s.dataset_size ≤ (it : Int) then (Except.error StepErr.stopIteration, s)
      else stepBody s it) = stepBody s it
    rw [if_neg hds]
  have hstep_s1 : step (refillIfEmpty s) = stepBody (refillIfEmpty s) it := by
    unfold step; rw [hci1]
    show (if (refillIfEmpty s).dataset_size ≤ (it : Int)
      then (Except.error StepErr.stopIteration, refillIfEmpty s)
      else stepBody (refillIfEmpty s) it) = stepBody (refillIfEmpty s) it
    rw [refill_dssize, if_neg hds]
  have hstepEq : step s = step (refillIfEmpty s) := by
    rw [hstep_s, hstep_s1, hstepBody]
  have hpopEq : poppedQuery s = poppedQuery (refillIfEmpty s) := by
    unfold poppedQuery
    rw [hci, hci1]
    show (if s.dataset_size ≤ (it : Int) then none
      else (refillIfEmpty s).ids_queue.head?)
      = (if (refillIfEmpty s).dataset_size ≤ (it : Int) then none
        else (refillIfEmpty (refillIfEmpty s)).ids_queue.head?)
    rw [refill_dssize, hrefill1]
  obtain ⟨m, rfl⟩ : ∃ m, N = m + 1 := ⟨N - 1, by omega⟩
  have htraceEq : queryTrace s (m + 1) = queryTrace (refillIfEmpty s) (m + 1) := by
    rw [queryTrace_succ, queryTrace_succ, hpopEq, hstepEq]
  have hrunEq : runSteps s (m + 1) = runSteps (refillIfEmpty s) (m + 1) := by
    rw [runSteps_succ, runSteps_succ, hstepEq]
  obtain ⟨htr, hok, gf, hfin⟩ :=
    pass_steps ((refillIfEmpty s).ids_queue) (refillIfEmpty s) it hci1 rfl
      (fun j hj => by
        rw [refill_data, hN]
        exact List.mem_range.mp (hperm.mem_iff.mp hj))
      (by rw [refill_data]; exact hnodup)
      (by rw [refill_isJson, refill_data]; exact hwk)
      (by rw [refill_ctxsize, refill_data, hN]; exact hk)
      (by rw [refill_dssize, hlen1]; exact hbudget)
  rw [hlen1] at htr hok hfin
  have htrace3 : queryTrace s (m + 1) = (refillIfEmpty s).ids_queue :=
    htraceEq.trans htr
  refine ⟨hrq, hperm, htrace3, ?_, ?_, ?_⟩
  · rw [htrace3]; exact hperm
  · rw [hrunEq]; exact hok
  · rw [hrunEq, hfin]

/-- Witness for C1: a concrete two-item corpus mid-run with an exhausted
queue; the next pass pops the freshly shuffled queue [0, 1] in order. -/
theorem cycling_pass_fifo_exactly_once_witness :
    (refillIfEmpty passState).ids_queue = (shuffle passState.rng passState.ids).1 ∧
    ((refillIfEmpty passState).ids_queue).Perm (List.range 2) ∧
    queryTrace passState 2 = (refillIfEmpty passState).ids_queue ∧
    (queryTrace passState 2).Perm (List.range 2) ∧
    (∀ r ∈ (runSteps passState 2).1, ∃ p, r = Except.ok p) ∧
    (runSteps passState 2).2.ids_queue = [] :=
  cycling_pass_fifo_exactly_once passState 0 2 (by decide) (by decide) (by decide)
    (by decide) (by decide) (by decide) (by decide) (by decide) (by decide)

/-- Claim C2 (refuted — code bug): the spec says construction produces a
fresh random permutation as the initial queue, but `ids_queue` is copied
from `ids` BEFORE `random.shuffle(self.ids)` runs, so for every corpus and
every RNG state the initial queue is the identity order 0..N-1; the shuffled
permutation sits only in `self.ids`. Concretely, with stream [1] the shuffle
of [0, 1] yields [1, 0], yet the constructed queue stays [0, 1]. -/
theorem initial_queue_is_identity_order :
    (∀ (isJson : Bool) (data : List Item) (k : Nat) (T : Int) (g : RNG),
      (mkLoader isJson data k T g).ids_queue = List.range data.length) ∧
    (shuffle (RNG.mk [1]) (List.range 2)).1 = [1, 0] ∧
    (mkLoader true demoPairs2 1 5 (RNG.mk [1])).ids_queue = [0, 1] ∧
    (mkLoader true demoPairs2 1 5 (RNG.mk [1])).ids = [1, 0] :=
  ⟨fun _ _ _ _ _ => rfl, by decide, by decide, by decide⟩

/-- Claim C3: at every successful step the candidate pool is exactly the
corpus records value-unequal to the queried record — membership is by value,
not index: every value-equal copy of the query is excluded and value
duplicates of other records stay eligible — the context is drawn from that
pool, and the produced context never contains a record value-equal to the
query. -/
theorem context_candidates_exclude_query (s : LoaderState) (p : String)
    (s' : LoaderState) (h : step s = (Except.ok p, s')) :
    ∃ i pred ctx g,
      (refillIfEmpty s).ids_queue.head? = some i ∧
      s.data[i]? = some pred ∧
      (∀ x, x ∈ candidates s.data pred ↔ (x ∈ s.data ∧ x ≠ pred)) ∧
      sample (refillIfEmpty s).rng (candidates s.data pred) s.context_size
        = (some ctx, g) ∧
      buildPrompt s.isJson ctx pred = some p ∧
      (∀ x ∈ ctx, x ∈ s.data ∧ x ≠ pred) := by
  obtain ⟨it, i, rest, pred, ctx, g, hci, hds, hq, hg, hsmp, hbp, _⟩ :=
    step_ok_inv h
  refine ⟨i, pred, ctx, g, by rw [hq]; rfl, hg,
    candidates_mem_iff s.data pred, hsmp, hbp, ?_⟩
  intro x hx
  exact (candidates_mem_iff s.data pred x).mp
    ((sample_some_subperm hsmp).subset hx)

/-- Witness for C3 at a concrete three-pair corpus: the first step queries
record 0 and builds the prompt from a context disjoint from it. -/
theorem context_candidates_exclude_query_witness :
    ∃ i pred ctx g,
      (refillIfEmpty (iterStart (mkLoader true demoPairs 1 5
        (RNG.mk [])))).ids_queue.head? = some i ∧
      (iterStart (mkLoader true demoPairs 1 5 (RNG.mk []))).data[i]?
        = some pred ∧
      (∀ x, x ∈ candidates (iterStart (mkLoader true demoPairs 1 5
          (RNG.mk []))).data pred
        ↔ (x ∈ (iterStart (mkLoader true demoPairs 1 5 (RNG.mk []))).data
          ∧ x ≠ pred)) ∧
      sample (refillIfEmpty (iterStart (mkLoader true demoPairs 1 5
          (RNG.mk [])))).rng
        (candidates (iterStart (mkLoader true demoPairs 1 5
          (RNG.mk []))).data pred)
        (iterStart (mkLoader true demoPairs 1 5 (RNG.mk []))).context_size
        = (some ctx, g) ∧
      buildPrompt (iterStart (mkLoader true demoPairs 1 5
          (RNG.mk []))).isJson ctx pred = some "c: d\na: " ∧
      (∀ x ∈ ctx, x ∈ (iterStart (mkLoader true demoPairs 1 5
        (RNG.mk []))).data ∧ x ≠ pred) :=
  context_candidates_exclude_query
    (iterStart (mkLoader true demoPairs 1 5 (RNG.mk []))) "c: d\na: "
    ((step (iterStart (mkLoader true demoPairs 1 5 (RNG.mk [])))).2)
    (by rfl)

/-- Claim C4: the context draw is without replacement — the k drawn items
have length k and form a sub-permutation of the candidate pool (k distinct
candidate positions) — and a step that reaches the draw fails (ValueError)
exactly when the pool is smaller than k; on a pairwise-distinct non-empty
corpus `a :: t`, k = N-1 succeeds and k = N fails. -/
theorem draw_without_replacement_iff_capacity (s : LoaderState) (it i : Nat)
    (pred : Item)
    (hci : s.current_iteration = some it)
    (hds : ¬ s.dataset_size ≤ (it : Int))
    (hq : (refillIfEmpty s).ids_queue.head? = some i)
    (hg : s.data[i]? = some pred)
    (hwk : wellKinded s.isJson s.data) :
    ((∃ e, (step s).1 = Except.error e)
      ↔ (candidates s.data pred).length < s.context_size) ∧
    ((step s).1 = Except.error StepErr.valueError
      ↔ (candidates s.data pred).length < s.context_size) ∧
    (∀ p s', step s = (Except.ok p, s') →
      ∃ ctx g, sample (refillIfEmpty s).rng (candidates s.data pred)
          s.context_size = (some ctx, g) ∧
        ctx.length = s.context_size ∧
        ctx.Subperm (candidates s.data pred)) ∧
    (∀ (isJson : Bool) (a : Item) (t : List Item) (T : Int) (g : RNG),
      (a :: t).Nodup → wellKinded isJson (a :: t) → (0:Int) < T →
      (∃ p s', step (iterStart (mkLoader isJson (a :: t) t.length T g))
        = (Except.ok p, s')) ∧
      (step (iterStart (mkLoader isJson (a :: t) (t.length + 1) T g))).1
        = Except.error StepErr.valueError) := by
  have hmain := step_reaches_sample s it i pred hci hds hq hg hwk
  refine ⟨?_, ?_, ?_, ?_⟩
  · rcases hmain with ⟨hlt, herr⟩ | ⟨hge, p, s', ctx, g, hstepEq, _, _, _, _⟩
    · exact ⟨fun _ => hlt, fun _ => ⟨StepErr.valueError, herr⟩⟩
    · constructor
      · rintro ⟨e, he⟩
        rw [hstepEq] at he
        simp at he
      · intro hc
        omega
  · rcases hmain with ⟨hlt, herr⟩ | ⟨hge, p, s', ctx, g, hstepEq, _, _, _, _⟩
    · exact ⟨fun _ => hlt, fun _ => herr⟩
    · constructor
      · intro he
        rw [hstepEq] at he
        simp at he
      · intro hc
        omega
  · rcases hmain with ⟨hlt, herr⟩ | ⟨hge, p, s', ctx, g, hstepEq, hsmp, hlenc, hsub, _⟩
    · intro p s' hstep
      rw [hstep] at herr
      simp at herr
    · intro p2 s2 _
      exact ⟨ctx, g, hsmp, hlenc, hsub⟩
  · intro isJson a t T g hnodup hwk2 hT
    have hne1 : (iterStart (mkLoader isJson (a :: t) t.length T g)).ids_queue
        ≠ [] := by
      show List.range (a :: t).length ≠ []
      simp [List.range_eq_nil]
    have hne2 : (iterStart (mkLoader isJson (a :: t) (t.length + 1) T g)).ids_queue
        ≠ [] := by
      show List.range (a :: t).length ≠ []
      simp [List.range_eq_nil]
    have hhead1 : (refillIfEmpty (iterStart (mkLoader isJson (a :: t)
        t.length T g))).ids_queue.head? = some 0 := by
      rw [refill_of_ne_nil hne1]
      show (List.range (a :: t).length).head? = some 0
      rw [show (a :: t).length = t.length + 1 from rfl, List.range_succ_eq_map]
      rfl
    have hhead2 : (refillIfEmpty (iterStart (mkLoader isJson (a :: t)
        (t.length + 1) T g))).ids_queue.head? = some 0 := by
      rw [refill_of_ne_nil hne2]
      show (List.range (a :: t).length).head? = some 0
      rw [show (a :: t).length = t.length + 1 from rfl, List.range_succ_eq_map]
      rfl
    have hdsT : ¬ T ≤ ((0 : Nat) : Int) := not_le.mpr hT
    have hcand : (candidates (a :: t) a).length = t.length := by
      rw [candidates_length_nodup hnodup (List.mem_cons_self a t)]
      rfl
    constructor
    · rcases step_reaches_sample
          (iterStart (mkLoader isJson (a :: t) t.length T g)) 0 0 a
          rfl hdsT hhead1 (by show (a :: t)[0]? = some a; exact List.getElem?_cons_zero) hwk2 with
        ⟨hlt, _⟩ | ⟨_, p, s', _, _, hstepEq, _, _, _, _⟩
      · have hlt2 : (candidates (a :: t) a).length < t.length := hlt
        rw [hcand] at hlt2
        omega
      · exact ⟨p, s', hstepEq⟩
    · rcases step_reaches_sample
          (iterStart (mkLoader isJson (a :: t) (t.length + 1) T g)) 0 0 a
          rfl hdsT hhead2 (by show (a :: t)[0]? = some a; exact List.getElem?_cons_zero) hwk2 with
        ⟨_, herr⟩ | ⟨hge, _, _, _, _, _, _, _, _, _⟩
      · exact herr
      · have hge2 : t.length + 1 ≤ (candidates (a :: t) a).length := hge
        rw [hcand] at hge2
        omega

/-- Witness for C4 on a concrete first step of the three-pair corpus with
k = 1. -/
theorem draw_without_replacement_iff_capacity_witness :
    ((∃ e, (step firstState).1 = Except.error e)
      ↔ (candidates firstState.data (Item.pair "a" "b")).length
        < firstState.context_size) ∧
    ((step firstState).1 = Except.error StepErr.valueError
      ↔ (candidates firstState.data (Item.pair "a" "b")).length
        < firstState.context_size) ∧
    (∀ p s', step firstState = (Except.ok p, s') →
      ∃ ctx g, sample (refillIfEmpty firstState).rng
          (candidates firstState.data (Item.pair "a" "b"))
          firstState.context_size = (some ctx, g) ∧
        ctx.length = firstState.context_size ∧
        ctx.Subperm (candidates firstState.data (Item.pair "a" "b"))) ∧
    (∀ (isJson : Bool) (a : Item) (t : List Item) (T : Int) (g : RNG),
      (a :: t).Nodup → wellKinded isJson (a :: t) → (0:Int) < T →
      (∃ p s', step (iterStart (mkLoader isJson (a :: t) t.length T g))
        = (Except.ok p, s')) ∧
      (step (iterStart (mkLoader isJson (a :: t) (t.length + 1) T g))).1
        = Except.error StepErr.valueError) :=
  draw_without_replacement_iff_capacity firstState 0 0 (Item.pair "a" "b")
    (by decide) (by decide) (by decide) (by decide) (by decide)

/-- Claim C5: every produced prompt is exactly the k drawn context items,
formatted by the dataset-kind template in draw order, newline-joined, with
the query line last carrying the trailing separator and no output field and
no trailing newline: the prompt is the newline-join of the k context lines
plus the single query line. -/
theorem prompt_is_template_lines (s : LoaderState) (p : String)
    (s' : LoaderState) (h : step s = (Except.ok p, s'))
    (hk : 0 < s.context_size) :
    ∃ i pred ctx g,
      (refillIfEmpty s).ids_queue.head? = some i ∧
      s.data[i]? = some pred ∧
      sample (refillIfEmpty s).rng (candidates s.data pred) s.context_size
        = (some ctx, g) ∧
      ctx.length = s.context_size ∧
      (s.isJson = true → wellKinded true s.data →
        p = String.intercalate "\n" (ctx.map pairLine ++ [pairQueryLine pred])) ∧
      (s.isJson = false → wellKinded false s.data →
        p = String.intercalate "\n" (ctx.map sentLine ++ [sentQueryLine pred])) := by
  obtain ⟨it, i, rest, pred, ctx, g, hci, hds, hq, hg, hsmp, hbp, _⟩ :=
    step_ok_inv h
  have hlen : ctx.length = s.context_size := sample_some_length hsmp
  have hmem : pred ∈ s.data := List.getElem?_mem hg
  have hctx : ∀ x ∈ ctx, x ∈ s.data := fun x hx =>
    List.mem_of_mem_filter ((sample_some_subperm hsmp).subset hx)
  refine ⟨i, pred, ctx, g, by rw [hq]; rfl, hg, hsmp, hlen, ?_, ?_⟩
  · intro hj hwk
    rw [hj] at hbp
    rw [buildPrompt_pair (fun x hx => hwk x (hctx x hx)) (hwk pred hmem)] at hbp
    injection hbp with hbp
    have hcne : ctx.map pairLine ≠ [] := by
      intro hcon
      rw [List.map_eq_nil_iff] at hcon
      rw [hcon] at hlen
      simp at hlen
      omega
    rw [intercalate_append_last "\n" (pairQueryLine pred) (ctx.map pairLine) hcne]
    exact hbp.symm
  · intro hj hwk
    rw [hj] at hbp
    rw [buildPrompt_sent (fun x hx => hwk x (hctx x hx)) (hwk pred hmem)] at hbp
    injection hbp with hbp
    have hcne : ctx.map sentLine ≠ [] := by
      intro hcon
      rw [List.map_eq_nil_iff] at hcon
      rw [hcon] at hlen
      simp at hlen
      omega
    rw [intercalate_append_last "\n" (sentQueryLine pred) (ctx.map sentLine) hcne]
    exact hbp.symm

/-- Witness for C5 on a concrete first step with k = 2: the prompt is the
two context lines plus the query line, newline-joined. -/
theorem prompt_is_template_lines_witness :
    ∃ i pred ctx g,
      (refillIfEmpty firstStateK2).ids_queue.head? = some i ∧
      firstStateK2.data[i]? = some pred ∧
      sample (refillIfEmpty firstStateK2).rng
        (candidates firstStateK2.data pred) firstStateK2.context_size
        = (some ctx, g) ∧
      ctx.length = firstStateK2.context_size ∧
      (firstStateK2.isJson = true → wellKinded true firstStateK2.data →
        "c: d\ne: f\na: "
          = String.intercalate "\n" (ctx.map pairLine ++ [pairQueryLine pred])) ∧
      (firstStateK2.isJson = false → wellKinded false firstStateK2.data →
        "c: d\ne: f\na: "
          = String.intercalate "\n" (ctx.map sentLine ++ [sentQueryLine pred])) :=
  prompt_is_template_lines firstStateK2 "c: d\ne: f\na: "
    ((step firstStateK2).2) (by rfl) (by decide)

/-- Claim C6 (refuted): a step is NOT atomic for the queue: with k = 2 on a
two-record corpus the context draw fails with ValueError, yet the popped
query index 0 is already gone from the queue. -/
theorem failed_draw_loses_popped_index_cex :
    (step overdrawState).1 = Except.error StepErr.valueError ∧
    overdrawState.ids_queue = [0, 1] ∧
    (step overdrawState).2.ids_queue = [1] :=
  ⟨rfl, rfl, rfl⟩

/-- Claim C6 amended: a failure at the context draw or at formatting happens
after the pop, so the popped index is lost: the queue after such a failed
step is the tail of the (refilled-if-empty) queue, while the emitted count,
the corpus, and the shuffled ids are unchanged and no prompt is produced. -/
theorem step_failure_pop_is_lost (s : LoaderState)
    (h : (step s).1 = Except.error StepErr.valueError
      ∨ (step s).1 = Except.error StepErr.keyError) :
    (step s).2.ids_queue = (refillIfEmpty s).ids_queue.tail ∧
    (step s).2.current_iteration = s.current_iteration ∧
    (step s).2.data = s.data ∧
    (step s).2.ids = (refillIfEmpty s).ids := by
  rcases step_characterization s with
    ⟨_, hs⟩ | ⟨it, _, _, hs⟩ | ⟨it, _, _, _, hs⟩ |
    ⟨it, i, rest, _, _, _, _, hs⟩ |
    ⟨it, i, rest, pred, _, _, hq, _, _, _, hs⟩ |
    ⟨it, i, rest, pred, ctx, g, _, _, hq, _, _, _, hs⟩ |
    ⟨it, i, rest, pred, ctx, g, p, _, _, _, _, _, _, hs⟩
  · rw [hs] at h; simp at h
  · rw [hs] at h; simp at h
  · rw [hs] at h; simp at h
  · rw [hs] at h; simp at h
  · rw [hs]
    exact ⟨by simp [hq], by simp, by simp, by simp⟩
  · rw [hs]
    exact ⟨by simp [hq], by simp, by simp, by simp⟩
  · rw [hs] at h; simp at h

/-- Witness for C6 amended at the concrete overdraw state. -/
theorem step_failure_pop_is_lost_witness :
    (step overdrawState).2.ids_queue
      = (refillIfEmpty overdrawState).ids_queue.tail ∧
    (step overdrawState).2.current_iteration
      = overdrawState.current_iteration ∧
    (step overdrawState).2.data = overdrawState.data ∧
    (step overdrawState).2.ids = (refillIfEmpty overdrawState).ids :=
  step_failure_pop_is_lost overdrawState (Or.inl (by rfl))

/-- Claim C7 (refuted): a negative target count does NOT raise a
configuration error: the very first step raises StopIteration — the normal
end-of-sequence signal — leaving the state unchanged. -/
theorem negative_target_signals_normal_end_cex :
    negTargetState.dataset_size < 0 ∧
    (step negTargetState).1 = Except.error StepErr.stopIteration ∧
    (step negTargetState).2 = negTargetState :=
  ⟨by decide, rfl, rfl⟩

/-- Claim C7 amended: an empty corpus fails at the first step with a hard
error (IndexError from popping the empty queue), distinguishable from the
end-of-sequence signal; a negative target count is treated like T = 0: the
first step signals normal end-of-sequence (StopIteration), not a
configuration error, and leaves the state unchanged. -/
theorem empty_corpus_errors_negative_target_ends (isJson : Bool) (k : Nat)
    (T : Int) (g : RNG) (s : LoaderState) (it : Nat)
    (hT : 0 < T) (hs : s.current_iteration = some it)
    (hneg : s.dataset_size < 0) :
    (step (iterStart (mkLoader isJson [] k T g))).1
      = Except.error StepErr.indexError ∧
    (step s).1 = Except.error StepErr.stopIteration ∧
    (step s).2 = s := by
  have h1 : step (iterStart (mkLoader isJson [] k T g))
      = (Except.error StepErr.indexError,
        refillIfEmpty (iterStart (mkLoader isJson [] k T g))) := by
    unfold step
    rw [show (iterStart (mkLoader isJson [] k T g)).current_iteration
      = some 0 from rfl]
    show (if (iterStart (mkLoader isJson [] k T g)).dataset_size
        ≤ ((0 : Nat) : Int)
      then (Except.error StepErr.stopIteration,
        iterStart (mkLoader isJson [] k T g))
      else stepBody (iterStart (mkLoader isJson [] k T g)) 0)
      = (Except.error StepErr.indexError,
        refillIfEmpty (iterStart (mkLoader isJson [] k T g)))
    rw [if_neg (show ¬ (iterStart (mkLoader isJson [] k T g)).dataset_size
      ≤ ((0 : Nat) : Int) from not_le.mpr hT)]
    rfl
  have h2 : step s = (Except.error StepErr.stopIteration, s) := by
    unfold step
    rw [hs]
    show (if s.dataset_size ≤ (it : Int)
      then (Except.error StepErr.stopIteration, s) else stepBody s it)
      = (Except.error StepErr.stopIteration, s)
    rw [if_pos (le_trans (le_of_lt hneg) (Int.natCast_nonneg it))]
  exact ⟨by rw [h1], by rw [h2], by rw [h2]⟩

/-- Witness for C7 amended at concrete inputs. -/
theorem empty_corpus_errors_negative_target_ends_witness :
    (step (iterStart (mkLoader true [] 1 5 (RNG.mk [])))).1
      = Except.error StepErr.indexError ∧
    (step negTargetState).1 = Except.error StepErr.stopIteration ∧
    (step negTargetState).2 = negTargetState :=
  empty_corpus_errors_negative_target_ends true 1 5 (RNG.mk [])
    negTargetState 0 (by decide) (by decide) (by decide)

/-- Claim C8 (refuted): restarting iteration does NOT reset the full sampler
state: after one consumed step, `__iter__` resets the counter to 0 but the
queue keeps its consumed state [1, 2] instead of returning to the
construction-time queue [0, 1, 2]. -/
theorem restart_does_not_reset_queue_cex :
    restartState.current_iteration = some 0 ∧
    (mkLoader true demoPairs 1 5 (RNG.mk [])).ids_queue = [0, 1, 2] ∧
    restartState.ids_queue = [1, 2] ∧
    restartState.ids_queue ≠ (mkLoader true demoPairs 1 5 (RNG.mk [])).ids_queue :=
  ⟨rfl, rfl, rfl, by decide⟩

/-- Claim C8 amended: each restart of iteration resets only the emitted
count (and the progress bar); the cycling queue, the shuffled ids, the
corpus, the configuration, and the RNG state persist unchanged. -/
theorem restart_resets_only_counter (s : LoaderState) :
    (iterStart s).current_iteration = some 0 ∧
    (iterStart s).ids_queue = s.ids_queue ∧
    (iterStart s).ids = s.ids ∧
    (iterStart s).data = s.data ∧
    (iterStart s).rng = s.rng ∧
    (iterStart s).context_size = s.context_size ∧
    (iterStart s).dataset_size = s.dataset_size ∧
    (iterStart s).isJson = s.isJson :=
  ⟨rfl, rfl, rfl, rfl, rfl, rfl, rfl, rfl⟩

/-- Claim C9: sampling is pure and deterministic given a fixed random seed:
two samplers built over the same corpus and configuration from equal RNG
states produce, for every number of steps, identical step results
(character-identical prompt strings), identical query-index traces, and
identical final states. -/
theorem sampling_deterministic (isJson : Bool) (data : List Item) (k : Nat)
    (T : Int) (g1 g2 : RNG) (n : Nat) (h : g1 = g2) :
    (runSteps (iterStart (mkLoader isJson data k T g1)) n).1
      = (runSteps (iterStart (mkLoader isJson data k T g2)) n).1 ∧
    queryTrace (iterStart (mkLoader isJson data k T g1)) n
      = queryTrace (iterStart (mkLoader isJson data k T g2)) n ∧
    (runSteps (iterStart (mkLoader isJson data k T g1)) n).2
      = (runSteps (iterStart (mkLoader isJson data k T g2)) n).2 := by
  subst h
  exact ⟨rfl, rfl, rfl⟩

/-- Witness for C9 at a concrete corpus, seed and step count. -/
theorem sampling_deterministic_witness :
    (runSteps (iterStart (mkLoader true demoPairs 1 5 (RNG.mk [2, 1]))) 3).1
      = (runSteps (iterStart (mkLoader true demoPairs 1 5 (RNG.mk [2, 1]))) 3).1 ∧
    queryTrace (iterStart (mkLoader true demoPairs 1 5 (RNG.mk [2, 1]))) 3
      = queryTrace (iterStart (mkLoader true demoPairs 1 5 (RNG.mk [2, 1]))) 3 ∧
    (runSteps (iterStart (mkLoader true demoPairs 1 5 (RNG.mk [2, 1]))) 3).2
      = (runSteps (iterStart (mkLoader true demoPairs 1 5 (RNG.mk [2, 1]))) 3).2 :=
  sampling_deterministic true demoPairs 1 5 (RNG.mk [2, 1]) (RNG.mk [2, 1]) 3 rfl

/-- Claim C10: on a freshly constructed sampler, `current_iteration` does
not exist until `__iter__` runs, so calling `__next__` first fails with an
AttributeError and leaves the state unchanged: the interface requires
`__iter__` before any step. -/
theorem next_before_iter_attribute_error (isJson : Bool) (data : List Item)
    (k : Nat) (T : Int) (g : RNG) :
    (mkLoader isJson data k T g).current_iteration = none ∧
    step (mkLoader isJson data k T g)
      = (Except.error StepErr.attributeError, mkLoader isJson data k T g) :=
  ⟨rfl, rfl⟩

end QuickICL
